import Mathlib

/-!
Verification development for the udensroze-scraper repository.

The repository ships deployment documentation (`README.md`) and a dashboard
configuration stub (`src/dashboard/config.js`).  The Scrape–Normalize–
Evaluate–Reconcile pipeline described by the specification is not present
under `src/`; every definition below that concerns the pipeline is therefore
modelled from the specification's words and marked as such in its doc
comment.  The dashboard configuration is embedded directly from
`src/dashboard/config.js`.
-/

namespace Udensroze

/-- Severity tier, a coarse bucket derived from the match score by fixed
thresholds. -/
inductive Severity
  | CRITICAL
  | HIGH
  | MEDIUM
  | LOW
deriving DecidableEq, Repr

/-- Modelled from the spec: the kind of a criterion group; the spec names
group-specific scoring functions (geographic proximity decay, land/area
target range with linear falloff, regulatory tri-state lookup) and the
README's CRITERIA table lists six groups. -/
inductive GroupKind
  | geographic
  | landSpace
  | architectural
  | infrastructure
  | regulatory
  | financial
deriving DecidableEq, Repr

/-- Modelled from the spec: tri-state zoning status used by the regulatory
criterion group. -/
inductive Zoning
  | buildable
  | pendingReview
  | restricted
deriving DecidableEq, Repr

/-- Modelled from the spec: the structured attributes of a PropertyRecord
that the criteria read (construction year, distance to coast, zoning status,
etc.); each is optional because listings may omit data. -/
structure Attributes where
  distToCenterKm : Option ℚ
  landSqm : Option ℚ
  constructionYear : Option ℚ
  distToCoastKm : Option ℚ
  zoning : Option Zoning
  price : Option ℚ
deriving DecidableEq, Repr

/-- Modelled from the spec: a named criterion group with a weight in [0,1]
and its scoring kind. -/
structure CriterionGroup where
  name : String
  weight : ℚ
  kind : GroupKind
deriving DecidableEq, Repr

/-- Modelled from the spec: an ordered set of named criterion groups. -/
structure CriteriaRubric where
  groups : List CriterionGroup
deriving DecidableEq, Repr

/-- Sum of the group weights of a rubric. -/
def weightSum (r : CriteriaRubric) : ℚ :=
  (r.groups.map (fun g => g.weight)).sum

/-- Computable absolute value on the rationals. -/
def absQ (x : ℚ) : ℚ := if x < 0 then -x else x

/-- The tolerance on the rubric weight-sum invariant. -/
def weightTol : ℚ := 1 / 1000000

/-- Modelled from the spec: a rubric is valid when every group weight lies
in [0,1] and the weights sum to 1.0 within the 1e-6 tolerance. -/
def rubricValid (r : CriteriaRubric) : Bool :=
  r.groups.all (fun g => decide (0 ≤ g.weight) && decide (g.weight ≤ 1)) &&
    decide (absQ (weightSum r - 1) ≤ weightTol)

/-- Modelled from the spec: the fatal configuration error raised when an
invalid rubric is loaded (`InvalidRubricError`). -/
inductive RubricError
  | invalidRubric
deriving DecidableEq, Repr

/-- Modelled from the spec: rubric loading validates the weight invariant
once, at load time; an invalid rubric is a fatal error and a valid one is
returned unchanged (never renormalized). -/
def loadRubric (r : CriteriaRubric) : Except RubricError CriteriaRubric :=
  if rubricValid r then .ok r else .error .invalidRubric

/-- Clamp a rational into [0,1]. -/
def clamp01 (x : ℚ) : ℚ := max 0 (min 1 x)

/-- Score an optional attribute: missing data yields 0, present data is
scored by the group formula and clamped into [0,1]. -/
def optScore (v : Option ℚ) (f : ℚ → ℚ) : ℚ :=
  match v with
  | none => 0
  | some x => clamp01 (f x)

/-- Modelled from the spec: the group-specific sub-score in [0,1] computed
from the record's relevant attributes; geographic proximity decays with
distance from the target center, land scoring uses a target range with
linear falloff outside it, regulatory scoring is a tri-state lookup, and
missing data yields a sub-score of 0. -/
def subScore (k : GroupKind) (a : Attributes) : ℚ :=
  match k with
  | .geographic => optScore a.distToCenterKm (fun d => 1 - d / 50)
  | .landSpace => optScore a.landSqm (fun x =>
      if 5000 ≤ x ∧ x ≤ 20000 then 1
      else if x < 5000 then 1 - (5000 - x) / 5000
      else 1 - (x - 20000) / 5000)
  | .architectural => optScore a.constructionYear (fun y => (y - 1900) / 100)
  | .infrastructure => optScore a.distToCoastKm (fun d => 1 - d / 20)
  | .regulatory =>
      match a.zoning with
      | none => 0
      | some .buildable => 1
      | some .pendingReview => 1 / 2
      | some .restricted => 0
  | .financial => optScore a.price (fun p => 1 - p / 300000)

/-- Modelled from the spec: the Evaluator total score,
`100 × Σ (group_weight × group_subscore)`. -/
def evaluateScore (r : CriteriaRubric) (a : Attributes) : ℚ :=
  100 * ((r.groups.map (fun g => g.weight * subScore g.kind a)).sum)

/-- Modelled from the spec: the severity tier derived from a score by the
fixed thresholds CRITICAL ≥ 85, HIGH ≥ 70, MEDIUM ≥ 50, else LOW. -/
def severityOf (s : ℚ) : Severity :=
  if 85 ≤ s then .CRITICAL
  else if 70 ≤ s then .HIGH
  else if 50 ≤ s then .MEDIUM
  else .LOW

/-- Result of evaluating a record against the rubric: the 0–100 match score,
the derived severity tier, and the per-criterion breakdown. -/
structure Evaluation where
  score : ℚ
  severity : Severity
  breakdown : List (String × ℚ)
deriving DecidableEq, Repr

/-- Modelled from the spec: the Evaluator, scoring a record's attributes
against the weighted rubric and deriving the severity tier from the score. -/
def evaluate (r : CriteriaRubric) (a : Attributes) : Evaluation :=
  { score := evaluateScore r a
    severity := severityOf (evaluateScore r a)
    breakdown := r.groups.map (fun g => (g.name, subScore g.kind a)) }

/-- Round a rational to one decimal place, as the persisted match score is. -/
def round1 (x : ℚ) : ℚ := (⌊10 * x + 1 / 2⌋ : ℚ) / 10

/-- Modelled from the spec: the match score stored on a PropertyRecord, a
0–100 value rounded to one decimal. -/
def recordScore (r : CriteriaRubric) (a : Attributes) : ℚ :=
  round1 (evaluateScore r a)

/-- A record has no missing attributes when every optional attribute is
present. -/
def noMissing (a : Attributes) : Prop :=
  a.distToCenterKm.isSome ∧ a.landSqm.isSome ∧ a.constructionYear.isSome ∧
    a.distToCoastKm.isSome ∧ a.zoning.isSome ∧ a.price.isSome

/-- A record is missing every attribute when every optional attribute is
absent. -/
def allMissing (a : Attributes) : Prop :=
  a.distToCenterKm = none ∧ a.landSqm = none ∧ a.constructionYear = none ∧
    a.distToCoastKm = none ∧ a.zoning = none ∧ a.price = none

/-- The rubric from the README's CRITERIA table: geographic 30%, land/space
25%, architectural 15%, infrastructure 15%, regulatory 10%, financial 5%. -/
def defaultRubric : CriteriaRubric :=
  { groups :=
      [ ⟨"geographic", 3 / 10, .geographic⟩
      , ⟨"land_space", 1 / 4, .landSpace⟩
      , ⟨"architectural", 3 / 20, .architectural⟩
      , ⟨"infrastructure", 3 / 20, .infrastructure⟩
      , ⟨"regulatory", 1 / 10, .regulatory⟩
      , ⟨"financial", 1 / 20, .financial⟩ ] }

/-- An attribute bag with every attribute present, each at a value its
scoring formula rewards maximally. -/
def idealAttrs : Attributes :=
  { distToCenterKm := some 0
    landSqm := some 10000
    constructionYear := some 2020
    distToCoastKm := some 0
    zoning := some .buildable
    price := some 0 }

/-- An attribute bag with every attribute missing. -/
def emptyAttrs : Attributes :=
  { distToCenterKm := none
    landSqm := none
    constructionYear := none
    distToCoastKm := none
    zoning := none
    price := none }

/-- A rubric whose weights sum to 0.97: the README weights with the
financial group at 2% instead of 5%. -/
def rubric097 : CriteriaRubric :=
  { groups :=
      [ ⟨"geographic", 3 / 10, .geographic⟩
      , ⟨"land_space", 1 / 4, .landSpace⟩
      , ⟨"architectural", 3 / 20, .architectural⟩
      , ⟨"infrastructure", 3 / 20, .infrastructure⟩
      , ⟨"regulatory", 1 / 10, .regulatory⟩
      , ⟨"financial", 1 / 50, .financial⟩ ] }

/-- A rubric at the boundary of the weight-sum tolerance: the README weights
with the geographic weight raised by exactly 1e-6, so the weights sum to
1 + 1e-6 and the rubric is still accepted as valid. -/
def overTolRubric : CriteriaRubric :=
  { groups :=
      [ ⟨"geographic", 300001 / 1000000, .geographic⟩
      , ⟨"land_space", 1 / 4, .landSpace⟩
      , ⟨"architectural", 3 / 20, .architectural⟩
      , ⟨"infrastructure", 3 / 20, .infrastructure⟩
      , ⟨"regulatory", 1 / 10, .regulatory⟩
      , ⟨"financial", 1 / 20, .financial⟩ ] }

/-- Modelled from the spec: one append-only price-history entry,
`{old_price, new_price, observed_at}`. -/
structure PriceEntry where
  old_price : ℚ
  new_price : ℚ
  observed_at : Nat
deriving DecidableEq, Repr

/-- Modelled from the spec: the canonical, persisted PropertyRecord.  The
stable identity is an injective encoding of (source, source-native id),
standing in for the hash the spec describes. -/
structure PropertyRecord where
  id : String
  source : String
  sourceId : String
  url : String
  location : String
  price : ℚ
  areaSqm : Option ℚ
  attrs : Attributes
  rawDescription : String
  matchScore : ℚ
  severity : Severity
  firstSeenAt : Nat
  lastSeenAt : Nat
  lastChangedAt : Nat
  priceHistory : List PriceEntry
  missingSince : Option Nat
  scope : String
deriving DecidableEq, Repr

/-- Modelled from the spec: the stable identity of a listing, one id per
(source, source-native id). -/
def canonicalId (source sourceId : String) : String :=
  source ++ "::" ++ sourceId

/-- Modelled from the spec: the decisions the Reconciler emits per incoming
record, plus the logged duplicate-in-batch event. -/
inductive RecEvent
  | created (id : String)
  | unchanged (id : String)
  | priceChanged (id : String) (delta : ℚ)
  | updated (id : String)
  | duplicateInBatch (id : String)
deriving DecidableEq, Repr

/-- Look an id up in the record map, represented as an association list. -/
def lookupRec : List (String × PropertyRecord) → String → Option PropertyRecord
  | [], _ => none
  | kv :: rest, k => if kv.1 = k then some kv.2 else lookupRec rest k

/-- Insert or replace the entry for one id in the record map. -/
def upsert : List (String × PropertyRecord) → String → PropertyRecord →
    List (String × PropertyRecord)
  | [], k, v => [(k, v)]
  | kv :: rest, k, v => if kv.1 = k then (k, v) :: rest else kv :: upsert rest k v

/-- Modelled from the spec: the tie-break for duplicates inside one batch —
of the records normalizing to the same canonical id, the later one in fetch
order wins, so a record is kept only when no later record shares its id. -/
def dedupKeepLater : List PropertyRecord → List PropertyRecord
  | [] => []
  | p :: rest =>
      if rest.any (fun q => decide (q.id = p.id)) then dedupKeepLater rest
      else p :: dedupKeepLater rest

/-- Modelled from the spec: one logged duplicate-in-batch event per earlier
occurrence dropped by the tie-break. -/
def dupEvents : List PropertyRecord → List RecEvent
  | [] => []
  | p :: rest =>
      if rest.any (fun q => decide (q.id = p.id)) then
        .duplicateInBatch p.id :: dupEvents rest
      else dupEvents rest

/-- Modelled from the spec: how one incoming record lands in the map.  A new
id is inserted (Created); a known id with a changed price appends one
price-history entry, bumps `last_changed_at` and reports the delta
(PriceChanged); a known id with changed non-price attributes updates fields
(Updated); otherwise only `last_seen_at` moves (Unchanged).  The score is
recomputed in every case and `missing_since` is cleared on reappearance. -/
def applyIncoming (rubric : CriteriaRubric) (ts : Nat)
    (oldEntry : Option PropertyRecord) (r : PropertyRecord) :
    PropertyRecord × RecEvent :=
  match oldEntry with
  | none =>
      ({ r with matchScore := recordScore rubric r.attrs
                severity := severityOf (recordScore rubric r.attrs)
                missingSince := none },
        .created r.id)
  | some old =>
      if old.price ≠ r.price then
        ({ r with firstSeenAt := old.firstSeenAt
                  priceHistory := old.priceHistory ++
                    [{ old_price := old.price, new_price := r.price, observed_at := ts }]
                  lastChangedAt := ts
                  lastSeenAt := ts
                  missingSince := none
                  matchScore := recordScore rubric r.attrs
                  severity := severityOf (recordScore rubric r.attrs) },
          .priceChanged r.id (r.price - old.price))
      else if old.attrs ≠ r.attrs then
        ({ r with firstSeenAt := old.firstSeenAt
                  priceHistory := old.priceHistory
                  lastChangedAt := ts
                  lastSeenAt := ts
                  missingSince := none
                  matchScore := recordScore rubric r.attrs
                  severity := severityOf (recordScore rubric r.attrs) },
          .updated r.id)
      else
        ({ old with lastSeenAt := ts
                    missingSince := none
                    matchScore := recordScore rubric old.attrs
                    severity := severityOf (recordScore rubric old.attrs) },
          .unchanged r.id)

/-- Process the deduplicated incoming batch left to right, threading the map
and appending one event per record. -/
def processBatch (rubric : CriteriaRubric) (ts : Nat) :
    List (String × PropertyRecord) → List RecEvent → List PropertyRecord →
    List (String × PropertyRecord) × List RecEvent
  | m, evs, [] => (m, evs)
  | m, evs, r :: rest =>
      let pr := applyIncoming rubric ts (lookupRec m r.id) r
      processBatch rubric ts (upsert m r.id pr.1) (evs ++ [pr.2]) rest

/-- Modelled from the spec: mark `missing_since` with the run timestamp when
it is unset, leaving an already-set marker alone. -/
def setMissing (ts : Nat) (rec : PropertyRecord) : PropertyRecord :=
  match rec.missingSince with
  | some _ => rec
  | none => { rec with missingSince := some ts }

/-- Modelled from the spec: every existing id not present in the incoming
batch gains the `missing_since` marker; no entry is ever removed. -/
def markMissing (ts : Nat) (ids : List String)
    (m : List (String × PropertyRecord)) : List (String × PropertyRecord) :=
  m.map (fun kv =>
    (kv.1, if ids.any (fun s => decide (s = kv.1)) then kv.2 else setMissing ts kv.2))

/-- Modelled from the spec: the Reconciler.  The incoming batch is
deduplicated by the later-wins tie-break (logging duplicate-in-batch
events), each surviving record is merged into the existing map, and
existing ids absent from the batch are marked missing. -/
def reconcile (rubric : CriteriaRubric) (ts : Nat)
    (existing : List (String × PropertyRecord)) (incoming : List PropertyRecord) :
    List (String × PropertyRecord) × List RecEvent :=
  let deduped := dedupKeepLater incoming
  let pr := processBatch rubric ts existing [] deduped
  (markMissing ts (incoming.map (fun p => p.id)) pr.1, dupEvents incoming ++ pr.2)

/-- A simple concrete record used by witnesses. -/
def sampleRecord (src sid : String) (price : ℚ) (ms : Option Nat) : PropertyRecord :=
  { id := canonicalId src sid
    source := src
    sourceId := sid
    url := ""
    location := "Monopoli"
    price := price
    areaSqm := none
    attrs := emptyAttrs
    rawDescription := ""
    matchScore := 0
    severity := .LOW
    firstSeenAt := 0
    lastSeenAt := 0
    lastChangedAt := 0
    priceHistory := []
    missingSince := ms
    scope := "Monopoli" }

/-- Witness fixture: a stored record and its map entry. -/
def existingW : List (String × PropertyRecord) :=
  [(canonicalId "s" "1", sampleRecord "s" "1" 150000 none)]

/-- Witness fixture: earlier occurrence of a republished duplicate. -/
def dupA : PropertyRecord := sampleRecord "s" "2" 100000 none

/-- Witness fixture: later occurrence of a republished duplicate. -/
def dupB : PropertyRecord := sampleRecord "s" "2" 120000 none

/-- Witness fixture: the stored record of scenario B, priced 150000. -/
def oldRec : PropertyRecord := sampleRecord "imm" "42" 150000 none

/-- Witness fixture: the re-scraped record of scenario B, priced 160000. -/
def newRec : PropertyRecord := sampleRecord "imm" "42" 160000 none

/-- Witness fixture: the existing map of scenario B. -/
def existingB : List (String × PropertyRecord) :=
  [(canonicalId "imm" "42", oldRec)]

/-- Modelled from the spec: a RawListing — source identifier, source-native
id, the raw field bag (price text, address text, area text, description,
URL, pre-extracted structured attributes) and the fetch timestamp. -/
structure RawListing where
  source : String
  sourceId : String
  priceText : String
  locationText : String
  areaText : String
  description : String
  url : String
  rawAttrs : Attributes
  fetchTs : Nat
deriving DecidableEq, Repr

/-- Modelled from the spec: the record-fatal NormalizationError — a
non-numeric price or an unresolvable location. -/
inductive NormalizationError
  | unparseablePrice (raw : String)
  | unresolvableLocation (raw : String)
deriving DecidableEq, Repr

/-- Strip currency symbols, blanks and thousands separators from a price
text. -/
def stripPriceChars (s : String) : List Char :=
  s.data.filter (fun c => !(c == '€' || c == '$' || c == ' ' || c == '.' || c == ','))

/-- Read a digit string as a natural number. -/
def digitsToNat (cs : List Char) : Nat :=
  cs.foldl (fun n c => 10 * n + (c.toNat - 48)) 0

/-- Modelled from the spec: currency parsing — strip symbols and thousands
separators, and reject a non-numeric remainder as a failure, never as 0. -/
def parsePrice (s : String) : Option ℚ :=
  let cs := stripPriceChars s
  if cs.isEmpty then none
  else if cs.all (fun c => c.isDigit) then some ((digitsToNat cs : ℕ) : ℚ)
  else none

/-- Case- and blank-insensitive form of a place name, the fuzziness of the
gazetteer match. -/
def normName (s : String) : String :=
  String.mk ((s.data.filter (fun c => !(c == ' '))).map Char.toLower)

/-- Modelled from the spec: location resolution against the fixed gazetteer
by fuzzy name match; no silent default. -/
def resolveLocation (gaz : List String) (s : String) : Option String :=
  gaz.find? (fun g => normName g == normName s)

/-- Modelled from the spec: text cleanup of the description field. -/
def cleanText (s : String) : String := s.trim

/-- Modelled from the spec: area reconciliation to square meters; absent or
non-numeric area text stays unset. -/
def parseArea (s : String) : Option ℚ :=
  let cs := s.data.filter (fun c => c.isDigit)
  if cs.isEmpty then none else some ((digitsToNat cs : ℕ) : ℚ)

/-- Modelled from the spec: the Normalizer, mapping a RawListing into the
canonical PropertyRecord or failing with NormalizationError; an unparseable
price or unresolvable location is an error, never a zero price or default
location. -/
def normalize (gaz : List String) (rubric : CriteriaRubric) (scope : String)
    (raw : RawListing) : Except NormalizationError PropertyRecord :=
  match parsePrice raw.priceText with
  | none => .error (.unparseablePrice raw.priceText)
  | some p =>
    match resolveLocation gaz raw.locationText with
    | none => .error (.unresolvableLocation raw.locationText)
    | some loc =>
      let attrs : Attributes := { raw.rawAttrs with price := some p }
      .ok { id := canonicalId raw.source raw.sourceId
            source := raw.source
            sourceId := raw.sourceId
            url := raw.url
            location := loc
            price := p
            areaSqm := parseArea raw.areaText
            attrs := attrs
            rawDescription := cleanText raw.description
            matchScore := recordScore rubric attrs
            severity := severityOf (recordScore rubric attrs)
            firstSeenAt := raw.fetchTs
            lastSeenAt := raw.fetchTs
            lastChangedAt := raw.fetchTs
            priceHistory := []
            missingSince := none
            scope := scope }

/-- The outcome of normalizing a batch: the surviving records and the tally
of normalization failures reported in the RunResult. -/
structure NormBatch where
  records : List PropertyRecord
  failures : Nat
deriving DecidableEq, Repr

/-- Modelled from the spec: batch normalization — a failed record is dropped
and counted, and the rest of the batch is still processed. -/
def normalizeBatch (gaz : List String) (rubric : CriteriaRubric) (scope : String) :
    List RawListing → NormBatch
  | [] => ⟨[], 0⟩
  | raw :: rest =>
    let res := normalizeBatch gaz rubric scope rest
    match normalize gaz rubric scope raw with
    | .ok rec => ⟨rec :: res.records, res.failures⟩
    | .error _ => ⟨res.records, res.failures + 1⟩

/-- Witness fixture: the fixed target-location gazetteer. -/
def gazetteerW : List String := ["Monopoli", "Ostuni", "Fasano"]

/-- Witness fixture: scenario D, a listing priced "Prezzo su richiesta". -/
def listingD : RawListing :=
  { source := "immobiliare"
    sourceId := "77"
    priceText := "Prezzo su richiesta"
    locationText := "Monopoli"
    areaText := "120 mq"
    description := " nice "
    url := ""
    rawAttrs := emptyAttrs
    fetchTs := 1 }

/-- Witness fixture: a normalizable listing. -/
def listingOkW : RawListing :=
  { source := "immobiliare"
    sourceId := "78"
    priceText := "200.000"
    locationText := "Monopoli"
    areaText := "120 mq"
    description := "x"
    url := ""
    rawAttrs := emptyAttrs
    fetchTs := 1 }

/-- Modelled from the spec: the unit-fatal, run-survivable source failure
(`SourceUnavailable`; a per-unit timeout behaves identically). -/
inductive SourceErr
  | sourceUnavailable
deriving DecidableEq, Repr

/-- Modelled from the spec: the fatal configuration-load error that aborts
the run before any side effect. -/
inductive ConfigError
  | invalidRubric
deriving DecidableEq, Repr

/-- Modelled from the spec: the run configuration document — the rubric,
the location gazetteer and the configured (source, scope) units. -/
structure RawConfig where
  rubric : CriteriaRubric
  gazetteer : List String
  units : List (String × String)
deriving Repr

/-- A validated run configuration. -/
structure Config where
  rubric : CriteriaRubric
  gazetteer : List String
  units : List (String × String)
deriving Repr

/-- Modelled from the spec: configuration loading — the rubric is validated
once, at load time, and an invalid rubric aborts the whole run. -/
def loadConfig (rc : RawConfig) : Except ConfigError Config :=
  match loadRubric rc.rubric with
  | .error _ => .error .invalidRubric
  | .ok rb => .ok ⟨rb, rc.gazetteer, rc.units⟩

/-- Per-unit entry of the RunResult: the unit, whether it succeeded, and its
fetched/normalized/failed counts. -/
structure UnitReport where
  source : String
  scope : String
  ok : Bool
  fetched : Nat
  normalized : Nat
  normFailures : Nat
deriving DecidableEq, Repr

/-- Whether a unit fetch succeeded. -/
def fetchOk (r : Except SourceErr (List RawListing)) : Bool :=
  match r with
  | .ok _ => true
  | .error _ => false

/-- Modelled from the spec: one (source, scope) unit — fetch, then
normalize/evaluate the yielded listings; a source-level failure aborts only
this unit's contribution. -/
def runUnit (gaz : List String) (rubric : CriteriaRubric)
    (fetch : String → String → Except SourceErr (List RawListing))
    (u : String × String) : UnitReport × List PropertyRecord :=
  match fetch u.1 u.2 with
  | .error _ => (⟨u.1, u.2, false, 0, 0, 0⟩, [])
  | .ok raws =>
    let nb := normalizeBatch gaz rubric u.2 raws
    (⟨u.1, u.2, true, raws.length, nb.records.length, nb.failures⟩, nb.records)

/-- Modelled from the spec: the terminal state of a run. -/
inductive RunState
  | completed
  | partiallyFailed
deriving DecidableEq, Repr

/-- Modelled from the spec: the RunResult — terminal state, per-unit
reports, the batch of successfully produced records, the reconciled map,
the events and the CRITICAL-tier id list. -/
structure RunResult where
  state : RunState
  unitReports : List UnitReport
  records : List PropertyRecord
  updatedMap : List (String × PropertyRecord)
  events : List RecEvent
  criticalIds : List String
deriving Repr

/-- Modelled from the spec: the PipelineRunner.  A configuration-load error
aborts the run with no result; otherwise every configured unit runs, the
successful units' records are reconciled against the existing snapshot, and
the run completes as `completed` only when every unit succeeded, else as
`partiallyFailed` — still emitting the RunResult with whatever succeeded. -/
def runPipeline (rc : RawConfig)
    (fetch : String → String → Except SourceErr (List RawListing))
    (existing : List (String × PropertyRecord)) (ts : Nat) :
    Except ConfigError RunResult :=
  match loadConfig rc with
  | .error e => .error e
  | .ok cfg =>
    let reports := cfg.units.map (fun u => (runUnit cfg.gazetteer cfg.rubric fetch u).1)
    let incoming :=
      (cfg.units.map (fun u => (runUnit cfg.gazetteer cfg.rubric fetch u).2)).flatten
    let rr := reconcile cfg.rubric ts existing incoming
    .ok { state :=
            if reports.all (fun rep => rep.ok) then .completed else .partiallyFailed
          unitReports := reports
          records := incoming
          updatedMap := rr.1
          events := rr.2
          criticalIds :=
            (rr.1.filter (fun kv => decide (kv.2.severity = Severity.CRITICAL))).map
              (fun kv => kv.1) }

/-- Witness fixture: the scenario C configuration with two sources. -/
def rcW : RawConfig :=
  { rubric := defaultRubric
    gazetteer := gazetteerW
    units := [("immobiliare", "Monopoli"), ("idealista", "Monopoli")] }

/-- Witness fixture: the validated form of the scenario C configuration. -/
def cfgW : Config :=
  { rubric := defaultRubric
    gazetteer := gazetteerW
    units := [("immobiliare", "Monopoli"), ("idealista", "Monopoli")] }

/-- Witness fixture: a fetch in which one of the two sources raises
SourceUnavailable. -/
def fetchW : String → String → Except SourceErr (List RawListing) :=
  fun s _ => if s = "immobiliare" then .ok [listingOkW] else .error .sourceUnavailable

/-- The shape of the Firebase web-app configuration object of
`src/dashboard/config.js`. -/
structure FirebaseConfig where
  apiKey : String
  authDomain : String
  projectId : String
  storageBucket : String
  messagingSenderId : String
  appId : String
deriving DecidableEq, Repr

/-- Embedded from `src/dashboard/config.js` lines 14–21: the shipped
FIREBASE_CONFIG literal. -/
def FIREBASE_CONFIG : FirebaseConfig :=
  { apiKey := "YOUR_API_KEY_HERE"
    authDomain := "udensroze-scraper.firebaseapp.com"
    projectId := "udensroze-scraper"
    storageBucket := "udensroze-scraper.appspot.com"
    messagingSenderId := "YOUR_MESSAGING_SENDER_ID"
    appId := "YOUR_APP_ID" }

/-- Embedded from `src/dashboard/config.js` line 72: the Cloud Storage
fallback URL constant. -/
def FALLBACK_DATA_URL : String :=
  "https://storage.googleapis.com/udensroze-data/latest/properties.json"

/-- The CommonJS exports object assigned by `config.js`. -/
structure ConfigExports where
  FIREBASE_CONFIG : FirebaseConfig
  FALLBACK_DATA_URL : String
deriving DecidableEq, Repr

/-- Embedded from `src/dashboard/config.js` lines 75–77: evaluating the
script binds the two constants and assigns `module.exports` exactly when a
CommonJS `module` with a truthy `module.exports` is in scope; the script
performs no other observable effect, so evaluation is modelled as the
optional exports assignment. -/
def evalConfigJs (moduleInScope exportsTruthy : Bool) : Option ConfigExports :=
  if moduleInScope && exportsTruthy then
    some { FIREBASE_CONFIG := FIREBASE_CONFIG, FALLBACK_DATA_URL := FALLBACK_DATA_URL }
  else none

end Udensroze

namespace Udensroze

theorem weightSum_defaultRubric : weightSum defaultRubric = 1 := by
  simp [weightSum, defaultRubric]
  norm_num

theorem defaultRubric_valid : rubricValid defaultRubric = true := by
  simp [rubricValid, defaultRubric, weightSum, weightTol, absQ]
  norm_num

theorem clamp01_nonneg (x : ℚ) : 0 ≤ clamp01 x := le_max_left 0 _

theorem clamp01_le_one (x : ℚ) : clamp01 x ≤ 1 := by
  unfold clamp01
  exact max_le (by norm_num) (min_le_left 1 x)

theorem optScore_nonneg (v : Option ℚ) (f : ℚ → ℚ) : 0 ≤ optScore v f := by
  cases v with
  | none => simp [optScore]
  | some x => exact clamp01_nonneg _

theorem optScore_le_one (v : Option ℚ) (f : ℚ → ℚ) : optScore v f ≤ 1 := by
  cases v with
  | none => simp [optScore]
  | some x => exact clamp01_le_one _

theorem subScore_nonneg (k : GroupKind) (a : Attributes) : 0 ≤ subScore k a := by
  cases k <;> simp only [subScore]
  case geographic => exact optScore_nonneg _ _
  case landSpace => exact optScore_nonneg _ _
  case architectural => exact optScore_nonneg _ _
  case infrastructure => exact optScore_nonneg _ _
  case regulatory =>
    cases h : a.zoning with
    | none => norm_num
    | some z => cases z <;> norm_num
  case financial => exact optScore_nonneg _ _

theorem subScore_le_one (k : GroupKind) (a : Attributes) : subScore k a ≤ 1 := by
  cases k <;> simp only [subScore]
  case geographic => exact optScore_le_one _ _
  case landSpace => exact optScore_le_one _ _
  case architectural => exact optScore_le_one _ _
  case infrastructure => exact optScore_le_one _ _
  case regulatory =>
    cases h : a.zoning with
    | none => norm_num
    | some z => cases z <;> norm_num
  case financial => exact optScore_le_one _ _

theorem severityOf_critical (s : ℚ) (h : 85 ≤ s) : severityOf s = .CRITICAL := by
  simp [severityOf, h]

theorem severityOf_high (s : ℚ) (h1 : 70 ≤ s) (h2 : s < 85) : severityOf s = .HIGH := by
  simp [severityOf, h1, not_le.mpr h2]

theorem severityOf_medium (s : ℚ) (h1 : 50 ≤ s) (h2 : s < 70) : severityOf s = .MEDIUM := by
  have h3 : s < 85 := lt_trans h2 (by norm_num)
  simp [severityOf, h1, not_le.mpr h2, not_le.mpr h3]

theorem severityOf_low (s : ℚ) (h : s < 50) : severityOf s = .LOW := by
  have h2 : s < 70 := lt_trans h (by norm_num)
  have h3 : s < 85 := lt_trans h (by norm_num)
  simp [severityOf, not_le.mpr h, not_le.mpr h2, not_le.mpr h3]

/-- Claim C1: for every attribute bag and valid rubric, the Evaluator's total
score equals 100 times the sum over criterion groups of group weight times
group sub-score, each sub-score lies in [0,1], and the severity tier is
derived from that score by the fixed thresholds CRITICAL ≥ 85, HIGH ≥ 70,
MEDIUM ≥ 50, else LOW. -/
theorem evaluator_score_formula_and_severity (r : CriteriaRubric) (a : Attributes)
    (_hv : rubricValid r = true) :
    (evaluate r a).score =
        100 * ((r.groups.map (fun g => g.weight * subScore g.kind a)).sum) ∧
      (∀ g ∈ r.groups, 0 ≤ subScore g.kind a ∧ subScore g.kind a ≤ 1) ∧
      (evaluate r a).severity = severityOf ((evaluate r a).score) ∧
      (∀ s : ℚ,
        (85 ≤ s → severityOf s = .CRITICAL) ∧
        (70 ≤ s ∧ s < 85 → severityOf s = .HIGH) ∧
        (50 ≤ s ∧ s < 70 → severityOf s = .MEDIUM) ∧
        (s < 50 → severityOf s = .LOW)) := by
  refine ⟨rfl, ?_, rfl, ?_⟩
  · intro g _
    exact ⟨subScore_nonneg _ _, subScore_le_one _ _⟩
  · intro s
    exact ⟨severityOf_critical s, fun h => severityOf_high s h.1 h.2,
      fun h => severityOf_medium s h.1 h.2, severityOf_low s⟩

/-- Witness for C1: the theorem applied at the README rubric and the ideal
attribute bag. -/
theorem evaluator_score_formula_and_severity_witness :
    (evaluate defaultRubric idealAttrs).score =
      100 * ((defaultRubric.groups.map
        (fun g => g.weight * subScore g.kind idealAttrs)).sum) :=
  (evaluator_score_formula_and_severity defaultRubric idealAttrs defaultRubric_valid).1

theorem rubricValid_weights (r : CriteriaRubric) (hv : rubricValid r = true) :
    ∀ g ∈ r.groups, 0 ≤ g.weight ∧ g.weight ≤ 1 := by
  intro g hg
  have h1 := (Bool.and_eq_true _ _).mp hv
  have h2 := (List.all_eq_true.mp h1.1) g hg
  have h3 := (Bool.and_eq_true _ _).mp h2
  exact ⟨of_decide_eq_true h3.1, of_decide_eq_true h3.2⟩

theorem rubricValid_sum (r : CriteriaRubric) (hv : rubricValid r = true) :
    absQ (weightSum r - 1) ≤ weightTol := by
  have h1 := (Bool.and_eq_true _ _).mp hv
  exact of_decide_eq_true h1.2

theorem le_absQ (x : ℚ) : x ≤ absQ x := by
  unfold absQ
  split <;> linarith

/-- Claim C2: loading a rubric whose group weights do not sum to 1.0 within
the 1e-6 tolerance fails with InvalidRubricError, and every rubric the
loader accepts is returned unchanged (never renormalized) with its weights
summing to 1.0 within that tolerance. -/
theorem loadRubric_weight_invariant (r : CriteriaRubric) :
    (weightTol < absQ (weightSum r - 1) → loadRubric r = .error .invalidRubric) ∧
      (∀ r2, loadRubric r = .ok r2 →
        r2 = r ∧ absQ (weightSum r2 - 1) ≤ weightTol) := by
  by_cases h : rubricValid r = true
  · have hsum := rubricValid_sum r h
    refine ⟨fun hlt => absurd hsum (not_le.mpr hlt), fun r2 hok => ?_⟩
    unfold loadRubric at hok
    rw [if_pos h] at hok
    cases hok
    exact ⟨rfl, hsum⟩
  · refine ⟨fun _ => ?_, fun r2 hok => ?_⟩
    · unfold loadRubric
      rw [if_neg h]
    · unfold loadRubric at hok
      rw [if_neg h] at hok
      cases hok

/-- Witness for C2: the rubric whose weights sum to 0.97 is rejected with
InvalidRubricError. -/
theorem loadRubric_weight_invariant_witness :
    loadRubric rubric097 = .error .invalidRubric := by
  refine (loadRubric_weight_invariant rubric097).1 ?_
  have hs : weightSum rubric097 - 1 = -(3 / 100) := by
    simp [weightSum, rubric097]
    norm_num
  rw [hs, absQ]
  rw [if_pos (by norm_num)]
  norm_num [weightTol]

theorem subScore_allMissing (k : GroupKind) (b : Attributes) (hb : allMissing b) :
    subScore k b = 0 := by
  obtain ⟨h1, h2, h3, h4, h5, h6⟩ := hb
  cases k <;> simp [subScore, optScore, h1, h2, h3, h4, h5, h6]

/-- Claim C3 (amended): for every valid rubric the Evaluator's score is
nonnegative and at most 100 × (1 + 1e-6); it is at most 100 whenever the
group weights sum to at most 1; and a record missing every attribute scores
exactly 0. -/
theorem evaluator_score_bounds (r : CriteriaRubric) (a b : Attributes)
    (hv : rubricValid r = true) :
    (noMissing a →
      0 ≤ evaluateScore r a ∧ evaluateScore r a ≤ 100 * (1 + weightTol)) ∧
      (weightSum r ≤ 1 → evaluateScore r a ≤ 100) ∧
      (allMissing b → evaluateScore r b = 0) := by
  have hw := rubricValid_weights r hv
  have hterm : ∀ g ∈ r.groups, g.weight * subScore g.kind a ≤ g.weight := by
    intro g hg
    exact mul_le_of_le_one_right (hw g hg).1 (subScore_le_one _ _)
  have hsum_le : ((r.groups.map (fun g => g.weight * subScore g.kind a)).sum) ≤
      weightSum r := by
    unfold weightSum
    exact List.sum_le_sum hterm
  have hsum_nonneg :
      0 ≤ ((r.groups.map (fun g => g.weight * subScore g.kind a)).sum) := by
    refine List.sum_nonneg ?_
    intro x hx
    obtain ⟨g, hg, rfl⟩ := List.mem_map.mp hx
    exact mul_nonneg (hw g hg).1 (subScore_nonneg _ _)
  have hws : weightSum r ≤ 1 + weightTol := by
    have := le_absQ (weightSum r - 1)
    have h2 := rubricValid_sum r hv
    linarith
  refine ⟨fun _ => ⟨?_, ?_⟩, fun h1 => ?_, fun hb => ?_⟩
  · unfold evaluateScore
    positivity
  · unfold evaluateScore
    nlinarith [hsum_le, hws]
  · unfold evaluateScore
    nlinarith [hsum_le]
  · unfold evaluateScore
    have hzero : (r.groups.map (fun g => g.weight * subScore g.kind b)).sum = 0 := by
      refine List.sum_eq_zero ?_
      intro x hx
      obtain ⟨g, hg, rfl⟩ := List.mem_map.mp hx
      rw [subScore_allMissing g.kind b hb, mul_zero]
    rw [hzero, mul_zero]

/-- Witness for C3 (amended): the theorem applied at the README rubric, the
ideal attribute bag and the empty attribute bag. -/
theorem evaluator_score_bounds_witness :
    0 ≤ evaluateScore defaultRubric idealAttrs ∧
      evaluateScore defaultRubric idealAttrs ≤ 100 * (1 + weightTol) :=
  (evaluator_score_bounds defaultRubric idealAttrs emptyAttrs defaultRubric_valid).1
    (by simp [noMissing, idealAttrs])

theorem lookup_upsert_self (m : List (String × PropertyRecord)) (k : String)
    (v : PropertyRecord) : lookupRec (upsert m k v) k = some v := by
  induction m with
  | nil => simp [upsert, lookupRec]
  | cons kv rest ih =>
    by_cases h : kv.1 = k
    · simp [upsert, h, lookupRec]
    · simp [upsert, h, lookupRec, ih]

theorem lookup_upsert_ne (m : List (String × PropertyRecord)) (k k2 : String)
    (v : PropertyRecord) (h : k ≠ k2) :
    lookupRec (upsert m k v) k2 = lookupRec m k2 := by
  induction m with
  | nil => simp [upsert, lookupRec, h]
  | cons kv rest ih =>
    by_cases h2 : kv.1 = k
    · rw [upsert, if_pos h2, lookupRec, if_neg h, lookupRec, if_neg (h2 ▸ h)]
    · rw [upsert, if_neg h2, lookupRec, lookupRec]
      by_cases h3 : kv.1 = k2
      · rw [if_pos h3, if_pos h3]
      · rw [if_neg h3, if_neg h3, ih]

theorem pb_mem_events (rubric : CriteriaRubric) (ts : Nat) (l : List PropertyRecord) :
    ∀ m evs e, e ∈ evs → e ∈ (processBatch rubric ts m evs l).2 := by
  induction l with
  | nil =>
    intro m evs e he
    simpa [processBatch] using he
  | cons r rest ih =>
    intro m evs e he
    simp only [processBatch]
    exact ih _ _ _ (by simp [he])

theorem pb_lookup_not_mem (rubric : CriteriaRubric) (ts : Nat) (l : List PropertyRecord) :
    ∀ m evs k, (∀ p ∈ l, p.id ≠ k) →
      lookupRec (processBatch rubric ts m evs l).1 k = lookupRec m k := by
  induction l with
  | nil => intro m evs k _; rfl
  | cons r rest ih =>
    intro m evs k h
    have hr : r.id ≠ k := h r (by simp)
    simp only [processBatch]
    rw [ih _ _ _ (fun p hp => h p (by simp [hp]))]
    exact lookup_upsert_ne _ _ _ _ hr

theorem pb_preserves (rubric : CriteriaRubric) (ts : Nat) (l : List PropertyRecord) :
    ∀ m evs k, (lookupRec m k).isSome = true →
      (lookupRec (processBatch rubric ts m evs l).1 k).isSome = true := by
  induction l with
  | nil => intro m evs k h; exact h
  | cons r rest ih =>
    intro m evs k h
    simp only [processBatch]
    apply ih
    by_cases hk : r.id = k
    · subst hk
      rw [lookup_upsert_self]
      rfl
    · rw [lookup_upsert_ne _ _ _ _ hk]
      exact h

theorem pb_lookup_single (rubric : CriteriaRubric) (ts : Nat) (l : List PropertyRecord) :
    ∀ m evs k r, l.filter (fun p => decide (p.id = k)) = [r] →
      lookupRec (processBatch rubric ts m evs l).1 k =
          some (applyIncoming rubric ts (lookupRec m k) r).1 ∧
        (applyIncoming rubric ts (lookupRec m k) r).2 ∈
          (processBatch rubric ts m evs l).2 := by
  induction l with
  | nil => intro m evs k r h; simp [List.filter] at h
  | cons p rest ih =>
    intro m evs k r h
    by_cases hp : p.id = k
    · rw [List.filter_cons_of_pos (by simp [hp])] at h
      have hpr : p = r := (List.cons_eq_cons.mp h).1
      have hrest : rest.filter (fun p => decide (p.id = k)) = [] :=
        (List.cons_eq_cons.mp h).2
      have hnone : ∀ q ∈ rest, q.id ≠ k := by
        intro q hq
        have := List.filter_eq_nil_iff.mp hrest q hq
        simpa using this
      subst hpr
      subst hp
      constructor
      · simp only [processBatch]
        rw [pb_lookup_not_mem rubric ts rest _ _ _ hnone, lookup_upsert_self]
      · simp only [processBatch]
        exact pb_mem_events rubric ts rest _ _ _ (by simp)
    · rw [List.filter_cons_of_neg (by simp [hp])] at h
      simp only [processBatch]
      have hres := ih (upsert m p.id (applyIncoming rubric ts (lookupRec m p.id) p).1)
        (evs ++ [(applyIncoming rubric ts (lookupRec m p.id) p).2]) k r h
      rwa [lookup_upsert_ne _ _ _ _ hp] at hres

theorem lookup_markMissing (ts : Nat) (ids : List String)
    (m : List (String × PropertyRecord)) (k : String) :
    lookupRec (markMissing ts ids m) k =
      (lookupRec m k).map (fun rec =>
        if ids.any (fun s => decide (s = k)) then rec else setMissing ts rec) := by
  induction m with
  | nil => rfl
  | cons kv rest ih =>
    by_cases h : kv.1 = k
    · subst h
      simp [markMissing, lookupRec]
    · simp [markMissing, lookupRec, h] at ih ⊢
      exact ih

/-- Counterexample to C3 as stated: the boundary rubric with weights summing
to 1 + 1e-6 is valid, yet it scores an all-present record strictly above
100. -/
theorem evaluator_score_over_100 :
    rubricValid overTolRubric = true ∧ noMissing idealAttrs ∧
      100 < evaluateScore overTolRubric idealAttrs := by
  refine ⟨?_, ?_, ?_⟩
  · simp [rubricValid, overTolRubric, weightSum, weightTol, absQ]
    norm_num
  · simp [noMissing, idealAttrs]
  · have hval : evaluateScore overTolRubric idealAttrs = 100 * (1 + 1 / 1000000) := by
      simp [evaluateScore, overTolRubric, subScore, idealAttrs, optScore, clamp01]
      norm_num
    rw [hval]
    norm_num

theorem dedup_filter_comm (l : List PropertyRecord) (k : String) :
    (dedupKeepLater l).filter (fun p => decide (p.id = k)) =
      dedupKeepLater (l.filter (fun p => decide (p.id = k))) := by
  induction l with
  | nil => rfl
  | cons p rest ih =>
    by_cases hany : rest.any (fun q => decide (q.id = p.id)) = true
    · rw [dedupKeepLater, if_pos hany, ih]
      by_cases hp : p.id = k
      · rw [List.filter_cons_of_pos (by simp [hp])]
        have hany2 : (rest.filter (fun q => decide (q.id = k))).any
            (fun q => decide (q.id = p.id)) = true := by
          obtain ⟨q, hq, hqid⟩ := List.any_eq_true.mp hany
          have hqk : q.id = k := by rw [of_decide_eq_true hqid, hp]
          exact List.any_eq_true.mpr
            ⟨q, List.mem_filter.mpr ⟨hq, by simp [hqk]⟩, hqid⟩
        rw [dedupKeepLater, if_pos hany2]
      · rw [List.filter_cons_of_neg (by simp [hp])]
    · rw [dedupKeepLater, if_neg hany]
      by_cases hp : p.id = k
      · rw [List.filter_cons_of_pos (by simp [hp]),
          List.filter_cons_of_pos (by simp [hp]), ih]
        have hany2 : (rest.filter (fun q => decide (q.id = k))).any
            (fun q => decide (q.id = p.id)) = false := by
          by_contra hc
          obtain ⟨q, hq, hqid⟩ :=
            List.any_eq_true.mp (Bool.of_not_eq_false hc)
          exact hany (List.any_eq_true.mpr ⟨q, (List.mem_filter.mp hq).1, hqid⟩)
        rw [dedupKeepLater, if_neg (by simp [hany2])]
      · rw [List.filter_cons_of_neg (by simp [hp]),
          List.filter_cons_of_neg (by simp [hp]), ih]

theorem dupEvents_count (k : String) (l : List PropertyRecord) :
    (dupEvents l).countP (fun e => decide (e = RecEvent.duplicateInBatch k)) =
      (l.filter (fun p => decide (p.id = k))).length - 1 := by
  induction l with
  | nil => rfl
  | cons p rest ih =>
    by_cases hp : p.id = k
    · rw [List.filter_cons_of_pos (by simp [hp])]
      by_cases hany : rest.any (fun q => decide (q.id = p.id)) = true
      · rw [dupEvents, if_pos hany, List.countP_cons]
        have hlen : 1 ≤ (rest.filter (fun q => decide (q.id = k))).length := by
          obtain ⟨q, hq, hqid⟩ := List.any_eq_true.mp hany
          have hqmem : q ∈ rest.filter (fun q => decide (q.id = k)) :=
            List.mem_filter.mpr ⟨hq, by simp [of_decide_eq_true hqid, hp]⟩
          exact List.length_pos.mpr (List.ne_nil_of_mem hqmem)
        have hsel : (decide (RecEvent.duplicateInBatch p.id =
            RecEvent.duplicateInBatch k)) = true := by simp [hp]
        rw [hsel, ih]
        simp only [List.length_cons, if_true]
        omega
      · rw [dupEvents, if_neg hany]
        have hnil : rest.filter (fun q => decide (q.id = k)) = [] := by
          rw [List.filter_eq_nil_iff]
          intro q hq hqk
          exact hany (List.any_eq_true.mpr
            ⟨q, hq, by simp [of_decide_eq_true hqk, hp]⟩)
        rw [ih, hnil]
        rfl
    · rw [List.filter_cons_of_neg (by simp [hp])]
      by_cases hany : rest.any (fun q => decide (q.id = p.id)) = true
      · rw [dupEvents, if_pos hany, List.countP_cons]
        have hsel : (decide (RecEvent.duplicateInBatch p.id =
            RecEvent.duplicateInBatch k)) = false := by simp [hp]
        rw [hsel, ih]
        rfl
      · rw [dupEvents, if_neg hany]
        exact ih

theorem applyIncoming_event_not_dup (rubric : CriteriaRubric) (ts : Nat)
    (o : Option PropertyRecord) (r : PropertyRecord) (k : String) :
    (applyIncoming rubric ts o r).2 ≠ RecEvent.duplicateInBatch k := by
  cases o with
  | none => simp [applyIncoming]
  | some old =>
    simp only [applyIncoming]
    split_ifs <;> simp

theorem applyIncoming_missingSince (rubric : CriteriaRubric) (ts : Nat)
    (o : Option PropertyRecord) (r : PropertyRecord) :
    (applyIncoming rubric ts o r).1.missingSince = none := by
  cases o with
  | none => rfl
  | some old =>
    simp only [applyIncoming]
    split_ifs <;> rfl

theorem pb_count_dup (rubric : CriteriaRubric) (ts : Nat) (l : List PropertyRecord) :
    ∀ m evs k, (processBatch rubric ts m evs l).2.countP
        (fun e => decide (e = RecEvent.duplicateInBatch k)) =
      evs.countP (fun e => decide (e = RecEvent.duplicateInBatch k)) := by
  induction l with
  | nil => intro m evs k; rfl
  | cons r rest ih =>
    intro m evs k
    simp only [processBatch]
    rw [ih, List.countP_append]
    simp [List.countP_cons, applyIncoming_event_not_dup]

theorem reconcile_fst (rubric : CriteriaRubric) (ts : Nat)
    (existing : List (String × PropertyRecord)) (incoming : List PropertyRecord) :
    (reconcile rubric ts existing incoming).1 =
      markMissing ts (incoming.map (fun p => p.id))
        (processBatch rubric ts existing [] (dedupKeepLater incoming)).1 := rfl

theorem reconcile_snd (rubric : CriteriaRubric) (ts : Nat)
    (existing : List (String × PropertyRecord)) (incoming : List PropertyRecord) :
    (reconcile rubric ts existing incoming).2 =
      dupEvents incoming ++
        (processBatch rubric ts existing [] (dedupKeepLater incoming)).2 := rfl

/-- Claim C4: reconcile never removes an id from the map; an existing record
whose id is absent from the incoming batch gets `missing_since` set to the
run timestamp (when unset) instead of being deleted, and `missing_since` is
cleared when the record reappears. -/
theorem reconcile_never_removes (rubric : CriteriaRubric) (ts : Nat)
    (existing : List (String × PropertyRecord)) (incoming : List PropertyRecord)
    (k : String) :
    ((lookupRec existing k).isSome = true →
      (lookupRec (reconcile rubric ts existing incoming).1 k).isSome = true) ∧
      (∀ old, lookupRec existing k = some old → (∀ p ∈ incoming, p.id ≠ k) →
        old.missingSince = none →
        lookupRec (reconcile rubric ts existing incoming).1 k =
          some { old with missingSince := some ts }) ∧
      (∀ rin, incoming.filter (fun p => decide (p.id = k)) = [rin] →
        (lookupRec existing k).isSome = true →
        ∃ rec, lookupRec (reconcile rubric ts existing incoming).1 k = some rec ∧
          rec.missingSince = none) := by
  refine ⟨?_, ?_, ?_⟩
  · intro h
    have hpb := pb_preserves rubric ts (dedupKeepLater incoming) existing [] k h
    rw [reconcile_fst, lookup_markMissing]
    cases hl : lookupRec
        (processBatch rubric ts existing [] (dedupKeepLater incoming)).1 k with
    | none => rw [hl] at hpb; simp at hpb
    | some rec => rfl
  · intro old hold hnotin hms
    have hfilter : incoming.filter (fun p => decide (p.id = k)) = [] := by
      rw [List.filter_eq_nil_iff]
      intro p hp
      simpa using hnotin p hp
    have hded0 : (dedupKeepLater incoming).filter (fun p => decide (p.id = k)) = [] := by
      rw [dedup_filter_comm, hfilter]
      rfl
    have hded : ∀ p ∈ dedupKeepLater incoming, p.id ≠ k := by
      intro p hp
      have hni := List.filter_eq_nil_iff.mp hded0 p hp
      simpa using hni
    have hpb : lookupRec
        (processBatch rubric ts existing [] (dedupKeepLater incoming)).1 k = some old := by
      rw [pb_lookup_not_mem rubric ts (dedupKeepLater incoming) existing [] k hded]
      exact hold
    have hany : (incoming.map (fun p => p.id)).any (fun s => decide (s = k)) = false := by
      by_contra hc
      obtain ⟨s, hs, hsk⟩ := List.any_eq_true.mp (Bool.of_not_eq_false hc)
      obtain ⟨p, hp, rfl⟩ := List.mem_map.mp hs
      exact hnotin p hp (of_decide_eq_true hsk)
    rw [reconcile_fst, lookup_markMissing, hpb]
    simp [hany, setMissing, hms]
  · intro rin hf _hsome
    have hrmem : rin ∈ incoming.filter (fun p => decide (p.id = k)) := by
      rw [hf]
      simp
    have hrid : rin.id = k := of_decide_eq_true (List.mem_filter.mp hrmem).2
    have hrin : rin ∈ incoming := (List.mem_filter.mp hrmem).1
    have hded : (dedupKeepLater incoming).filter (fun p => decide (p.id = k)) = [rin] := by
      rw [dedup_filter_comm, hf]
      simp [dedupKeepLater]
    have hsingle :=
      pb_lookup_single rubric ts (dedupKeepLater incoming) existing [] k rin hded
    have hany : (incoming.map (fun p => p.id)).any (fun s => decide (s = k)) = true :=
      List.any_eq_true.mpr
        ⟨rin.id, List.mem_map.mpr ⟨rin, hrin, rfl⟩, by simp [hrid]⟩
    refine ⟨(applyIncoming rubric ts (lookupRec existing k) rin).1, ?_,
      applyIncoming_missingSince _ _ _ _⟩
    rw [reconcile_fst, lookup_markMissing, hsingle.1]
    simp [hany]

/-- Witness for C4: a stored record absent from an empty incoming batch is
kept and marked missing at the run timestamp. -/
theorem reconcile_never_removes_witness :
    lookupRec (reconcile defaultRubric 7 existingW []).1 (canonicalId "s" "1") =
      some { sampleRecord "s" "1" 150000 none with missingSince := some 7 } :=
  (reconcile_never_removes defaultRubric 7 existingW [] (canonicalId "s" "1")).2.1
    (sampleRecord "s" "1" 150000 none) (by decide) (by simp) (by decide)

/-- Claim C5: when the incoming batch holds exactly two records with the
same canonical id, the later occurrence in fetch order survives the
tie-break, the earlier one is dropped, the surviving occurrence is the one
merged into the map, and exactly one duplicate-in-batch event is emitted
for that id. -/
theorem reconcile_duplicate_later_wins (rubric : CriteriaRubric) (ts : Nat)
    (existing : List (String × PropertyRecord)) (incoming : List PropertyRecord)
    (k : String) (r1 r2 : PropertyRecord)
    (hf : incoming.filter (fun p => decide (p.id = k)) = [r1, r2]) :
    (dedupKeepLater incoming).filter (fun p => decide (p.id = k)) = [r2] ∧
      lookupRec (reconcile rubric ts existing incoming).1 k =
        some (applyIncoming rubric ts (lookupRec existing k) r2).1 ∧
      (reconcile rubric ts existing incoming).2.countP
        (fun e => decide (e = RecEvent.duplicateInBatch k)) = 1 := by
  have h1mem : r1 ∈ incoming.filter (fun p => decide (p.id = k)) := by
    rw [hf]
    simp
  have h2mem : r2 ∈ incoming.filter (fun p => decide (p.id = k)) := by
    rw [hf]
    simp
  have h1id : r1.id = k := of_decide_eq_true (List.mem_filter.mp h1mem).2
  have h2id : r2.id = k := of_decide_eq_true (List.mem_filter.mp h2mem).2
  have h2in : r2 ∈ incoming := (List.mem_filter.mp h2mem).1
  have hded : (dedupKeepLater incoming).filter (fun p => decide (p.id = k)) = [r2] := by
    rw [dedup_filter_comm, hf, dedupKeepLater,
      if_pos (by simp [h2id, h1id])]
    simp [dedupKeepLater]
  have hsingle :=
    pb_lookup_single rubric ts (dedupKeepLater incoming) existing [] k r2 hded
  have hany : (incoming.map (fun p => p.id)).any (fun s => decide (s = k)) = true :=
    List.any_eq_true.mpr
      ⟨r2.id, List.mem_map.mpr ⟨r2, h2in, rfl⟩, by simp [h2id]⟩
  refine ⟨hded, ?_, ?_⟩
  · rw [reconcile_fst, lookup_markMissing, hsingle.1]
    simp [hany]
  · rw [reconcile_snd, List.countP_append, dupEvents_count k incoming, hf,
      pb_count_dup rubric ts (dedupKeepLater incoming) existing [] k]
    rfl

/-- Witness for C5: a batch holding the same (source, source-id) twice keeps
only the later occurrence and logs exactly one duplicate-in-batch event. -/
theorem reconcile_duplicate_later_wins_witness :
    (dedupKeepLater [dupA, dupB]).filter
        (fun p => decide (p.id = canonicalId "s" "2")) = [dupB] ∧
      (reconcile defaultRubric 3 [] [dupA, dupB]).2.countP
        (fun e => decide (e = RecEvent.duplicateInBatch (canonicalId "s" "2"))) = 1 := by
  have h := reconcile_duplicate_later_wins defaultRubric 3 [] [dupA, dupB]
    (canonicalId "s" "2") dupA dupB (by decide)
  exact ⟨h.1, h.2.2⟩

/-- Claim C6: an incoming record with a known id and a changed price gets
exactly one new price-history entry {old_price, new_price, observed_at},
its `last_changed_at` updated, its score recomputed, and a PriceChanged
event whose delta is the new price minus the old price. -/
theorem reconcile_price_changed (rubric : CriteriaRubric) (ts : Nat)
    (existing : List (String × PropertyRecord)) (incoming : List PropertyRecord)
    (r old : PropertyRecord)
    (hold : lookupRec existing r.id = some old)
    (hne : old.price ≠ r.price)
    (hf : incoming.filter (fun p => decide (p.id = r.id)) = [r]) :
    ∃ rec, lookupRec (reconcile rubric ts existing incoming).1 r.id = some rec ∧
      rec.priceHistory = old.priceHistory ++
        [{ old_price := old.price, new_price := r.price, observed_at := ts }] ∧
      rec.lastChangedAt = ts ∧ rec.lastSeenAt = ts ∧
      rec.matchScore = recordScore rubric r.attrs ∧
      RecEvent.priceChanged r.id (r.price - old.price) ∈
        (reconcile rubric ts existing incoming).2 := by
  have hrmem : r ∈ incoming := by
    have hmem : r ∈ incoming.filter (fun p => decide (p.id = r.id)) := by
      rw [hf]
      simp
    exact (List.mem_filter.mp hmem).1
  have hded : (dedupKeepLater incoming).filter (fun p => decide (p.id = r.id)) = [r] := by
    rw [dedup_filter_comm, hf]
    simp [dedupKeepLater]
  have hsingle :=
    pb_lookup_single rubric ts (dedupKeepLater incoming) existing [] r.id r hded
  have happ : applyIncoming rubric ts (lookupRec existing r.id) r =
      ({ r with firstSeenAt := old.firstSeenAt
                priceHistory := old.priceHistory ++
                  [{ old_price := old.price, new_price := r.price, observed_at := ts }]
                lastChangedAt := ts
                lastSeenAt := ts
                missingSince := none
                matchScore := recordScore rubric r.attrs
                severity := severityOf (recordScore rubric r.attrs) },
        .priceChanged r.id (r.price - old.price)) := by
    rw [hold]
    simp [applyIncoming, hne]
  have hany : (incoming.map (fun p => p.id)).any (fun s => decide (s = r.id)) = true :=
    List.any_eq_true.mpr
      ⟨r.id, List.mem_map.mpr ⟨r, hrmem, rfl⟩, by simp⟩
  refine ⟨(applyIncoming rubric ts (lookupRec existing r.id) r).1, ?_, ?_, ?_, ?_, ?_, ?_⟩
  · rw [reconcile_fst, lookup_markMissing, hsingle.1]
    simp [hany]
  · rw [happ]
  · rw [happ]
  · rw [happ]
  · rw [happ]
  · have hev := hsingle.2
    rw [happ] at hev
    rw [reconcile_snd]
    exact List.mem_append_right _ hev

/-- Witness for C6: scenario B — a record stored at 150000 re-scraped at
160000 appends one history entry and emits PriceChanged with delta
+10000. -/
theorem reconcile_price_changed_witness :
    ∃ rec, lookupRec (reconcile defaultRubric 9 existingB [newRec]).1 newRec.id =
        some rec ∧
      rec.priceHistory =
        [{ old_price := 150000, new_price := 160000, observed_at := 9 }] ∧
      rec.lastChangedAt = 9 ∧
      RecEvent.priceChanged newRec.id 10000 ∈
        (reconcile defaultRubric 9 existingB [newRec]).2 := by
  obtain ⟨rec, h1, h2, h3, _, _, h6⟩ :=
    reconcile_price_changed defaultRubric 9 existingB [newRec] newRec oldRec
      (by decide) (by decide) (by decide)
  have hdelta : newRec.price - oldRec.price = (10000 : ℚ) := by
    show (160000 : ℚ) - 150000 = 10000
    norm_num
  have hhist : oldRec.priceHistory = [] := rfl
  refine ⟨rec, h1, ?_, h3, ?_⟩
  · rw [h2, hhist]
    rfl
  · rwa [hdelta] at h6

/-- Claim C7: the Normalizer is deterministic — identical RawListing input
yields identical PropertyRecord fields (including, in this pure model, the
timestamps carried over from the input). -/
theorem normalize_deterministic (gaz : List String) (rubric : CriteriaRubric)
    (scope : String) (r1 r2 : RawListing) (h : r1 = r2) :
    normalize gaz rubric scope r1 = normalize gaz rubric scope r2 := by
  rw [h]

/-- Witness for C7: normalizing the same concrete listing twice gives the
same result. -/
theorem normalize_deterministic_witness :
    normalize gazetteerW defaultRubric "Monopoli" listingOkW =
      normalize gazetteerW defaultRubric "Monopoli" listingOkW :=
  normalize_deterministic gazetteerW defaultRubric "Monopoli" listingOkW listingOkW rfl

theorem normalizeBatch_append (gaz : List String) (rubric : CriteriaRubric)
    (scope : String) (l1 l2 : List RawListing) :
    normalizeBatch gaz rubric scope (l1 ++ l2) =
      { records := (normalizeBatch gaz rubric scope l1).records ++
          (normalizeBatch gaz rubric scope l2).records
        failures := (normalizeBatch gaz rubric scope l1).failures +
          (normalizeBatch gaz rubric scope l2).failures } := by
  induction l1 with
  | nil => simp [normalizeBatch]
  | cons raw rest ih =>
    simp only [List.cons_append, normalizeBatch]
    cases hnorm : normalize gaz rubric scope raw with
    | ok rec => simp [hnorm, ih]
    | error e => simp [hnorm, ih]; omega

/-- Claim C8: a RawListing with a non-numeric price text fails with
NormalizationError (never a zero price), one with an unresolvable location
fails with NormalizationError (never a default location), and a failed
record is dropped from the batch and counted under normalization failures
while the rest of the batch is still processed. -/
theorem normalize_rejects_and_run_continues (gaz : List String)
    (rubric : CriteriaRubric) (scope : String) (raw : RawListing)
    (l1 l2 : List RawListing) :
    (parsePrice raw.priceText = none →
      normalize gaz rubric scope raw = .error (.unparseablePrice raw.priceText)) ∧
      (∀ p, parsePrice raw.priceText = some p →
        resolveLocation gaz raw.locationText = none →
        normalize gaz rubric scope raw =
          .error (.unresolvableLocation raw.locationText)) ∧
      (∀ e, normalize gaz rubric scope raw = .error e →
        normalizeBatch gaz rubric scope (l1 ++ raw :: l2) =
          { records := (normalizeBatch gaz rubric scope (l1 ++ l2)).records
            failures := (normalizeBatch gaz rubric scope (l1 ++ l2)).failures + 1 }) := by
  refine ⟨?_, ?_, ?_⟩
  · intro h
    simp [normalize, h]
  · intro p hp hl
    simp [normalize, hp, hl]
  · intro e he
    have hmid : normalizeBatch gaz rubric scope (raw :: l2) =
        { records := (normalizeBatch gaz rubric scope l2).records
          failures := (normalizeBatch gaz rubric scope l2).failures + 1 } := by
      simp only [normalizeBatch]
      rw [he]
    rw [normalizeBatch_append gaz rubric scope l1 (raw :: l2), hmid,
      normalizeBatch_append gaz rubric scope l1 l2]
    simp
    omega

/-- Witness for C8: scenario D — the listing priced "Prezzo su richiesta"
fails with NormalizationError and is counted, not crashing the batch. -/
theorem normalize_rejects_and_run_continues_witness :
    normalize gazetteerW defaultRubric "Monopoli" listingD =
      .error (.unparseablePrice "Prezzo su richiesta") :=
  (normalize_rejects_and_run_continues gazetteerW defaultRubric "Monopoli"
    listingD [] []).1 (by decide)

theorem runUnit_ok (gaz : List String) (rubric : CriteriaRubric)
    (fetch : String → String → Except SourceErr (List RawListing))
    (u : String × String) :
    (runUnit gaz rubric fetch u).1.ok = fetchOk (fetch u.1 u.2) := by
  cases h : fetch u.1 u.2 <;> simp [runUnit, fetchOk, h]

/-- Claim C9: a run terminates `completed` iff every (source, scope) unit
succeeded; any unit failure makes it `partiallyFailed` while a RunResult
with every unit's report and every successful unit's records is still
emitted and reconciled; a configuration-load error aborts the run with no
result. -/
theorem pipeline_partial_failure (rc : RawConfig)
    (fetch : String → String → Except SourceErr (List RawListing))
    (existing : List (String × PropertyRecord)) (ts : Nat) :
    (∀ e, loadConfig rc = .error e → runPipeline rc fetch existing ts = .error e) ∧
      (∀ cfg, loadConfig rc = .ok cfg →
        ∃ rr, runPipeline rc fetch existing ts = .ok rr) ∧
      (∀ cfg, loadConfig rc = .ok cfg →
        ∀ rr, runPipeline rc fetch existing ts = .ok rr →
          (rr.state = .completed ↔ ∀ u ∈ cfg.units, fetchOk (fetch u.1 u.2) = true) ∧
          ((∃ u ∈ cfg.units, fetchOk (fetch u.1 u.2) = false) →
            rr.state = .partiallyFailed) ∧
          rr.unitReports =
            cfg.units.map (fun u => (runUnit cfg.gazetteer cfg.rubric fetch u).1) ∧
          rr.records = (cfg.units.map
            (fun u => (runUnit cfg.gazetteer cfg.rubric fetch u).2)).flatten ∧
          (∀ u ∈ cfg.units, ∀ rec ∈ (runUnit cfg.gazetteer cfg.rubric fetch u).2,
            rec ∈ rr.records) ∧
          rr.updatedMap = (reconcile cfg.rubric ts existing rr.records).1 ∧
          rr.events = (reconcile cfg.rubric ts existing rr.records).2) := by
  refine ⟨?_, ?_, ?_⟩
  · intro e he
    unfold runPipeline
    rw [he]
  · intro cfg hcfg
    exact ⟨_, by unfold runPipeline; rw [hcfg]⟩
  · intro cfg hcfg rr hrr
    unfold runPipeline at hrr
    rw [hcfg] at hrr
    injection hrr with hval
    subst hval
    refine ⟨?_, ?_, rfl, rfl, ?_, rfl, rfl⟩
    · dsimp only
      by_cases hb : (cfg.units.map
          (fun u => (runUnit cfg.gazetteer cfg.rubric fetch u).1)).all
            (fun rep => rep.ok) = true
      · rw [if_pos hb]
        constructor
        · intro _ u hu
          have hrep := List.all_eq_true.mp hb _ (List.mem_map.mpr ⟨u, hu, rfl⟩)
          rwa [runUnit_ok] at hrep
        · intro _
          rfl
      · rw [if_neg hb]
        constructor
        · intro hcontra
          exact absurd hcontra (by simp)
        · intro hall
          exfalso
          apply hb
          refine List.all_eq_true.mpr ?_
          intro rep hrep
          obtain ⟨u, hu, rfl⟩ := List.mem_map.mp hrep
          rw [runUnit_ok]
          exact hall u hu
    · rintro ⟨u, hu, hfail⟩
      dsimp only
      rw [if_neg ?_]
      intro hb
      have hrep := List.all_eq_true.mp hb _ (List.mem_map.mpr ⟨u, hu, rfl⟩)
      rw [runUnit_ok, hfail] at hrep
      cases hrep
    · intro u hu rec hrec
      dsimp only
      exact List.mem_flatten.mpr ⟨_, List.mem_map.mpr ⟨u, hu, rfl⟩, hrec⟩

/-- Witness for C9: scenario C — one of two configured sources raises
SourceUnavailable; the run still produces a RunResult and reports state
partiallyFailed. -/
theorem pipeline_partial_failure_witness :
    ∃ rr, runPipeline rcW fetchW [] 5 = .ok rr ∧ rr.state = .partiallyFailed := by
  have hlr : loadRubric defaultRubric = .ok defaultRubric := by
    unfold loadRubric
    rw [if_pos defaultRubric_valid]
  have hcfg : loadConfig rcW = .ok cfgW := by
    simp [loadConfig, rcW, cfgW, hlr]
  obtain ⟨rr, hok⟩ := (pipeline_partial_failure rcW fetchW [] 5).2.1 cfgW hcfg
  have hconj := (pipeline_partial_failure rcW fetchW [] 5).2.2 cfgW hcfg rr hok
  exact ⟨rr, hok,
    hconj.2.1 ⟨("idealista", "Monopoli"), by simp [cfgW], by decide⟩⟩

/-- Claim C10: evaluating `src/dashboard/config.js` always binds
FIREBASE_CONFIG to the fixed object whose projectId is "udensroze-scraper"
and whose apiKey, messagingSenderId and appId are the literal placeholder
strings (no real credentials are shipped); it binds FALLBACK_DATA_URL to
the fixed Cloud Storage URL; and it sets `module.exports` to exactly
{ FIREBASE_CONFIG, FALLBACK_DATA_URL } precisely when a CommonJS `module`
with a truthy `module.exports` is in scope, with no other observable
effect. -/
theorem configJs_fixed_bindings :
    FIREBASE_CONFIG.projectId = "udensroze-scraper" ∧
      FIREBASE_CONFIG.apiKey = "YOUR_API_KEY_HERE" ∧
      FIREBASE_CONFIG.messagingSenderId = "YOUR_MESSAGING_SENDER_ID" ∧
      FIREBASE_CONFIG.appId = "YOUR_APP_ID" ∧
      FALLBACK_DATA_URL =
        "https://storage.googleapis.com/udensroze-data/latest/properties.json" ∧
      (∀ m e : Bool, evalConfigJs m e =
        if m && e then
          some { FIREBASE_CONFIG := FIREBASE_CONFIG
                 FALLBACK_DATA_URL := FALLBACK_DATA_URL }
        else none) :=
  ⟨rfl, rfl, rfl, rfl, rfl, fun _ _ => rfl⟩

end Udensroze
